import Mathlib

/-!
Shallow embedding of the `io.rs` LiDAR sweep accumulator of `av2-api-sf`
(function `read_lidar` and its helpers), together with the rigid-transform
algebra it relies on.  Float32 arithmetic is modelled exactly over `ℚ`;
`u64` arithmetic is modelled as `Nat` with explicit wrap-around modulo
`2 ^ 64` where the source performs unsigned subtraction.
-/

/-- A 3-vector of (exactly modelled) float32 components. -/
structure Vec3 where
  x : ℚ
  y : ℚ
  z : ℚ
deriving DecidableEq, Repr

def Vec3.add (a b : Vec3) : Vec3 := ⟨a.x + b.x, a.y + b.y, a.z + b.z⟩

def Vec3.neg (a : Vec3) : Vec3 := ⟨-a.x, -a.y, -a.z⟩

def Vec3.zero : Vec3 := ⟨0, 0, 0⟩

/-- A row-major 3×3 matrix; `aRC` is the entry at row `R`, column `C`. -/
structure Mat3 where
  a00 : ℚ
  a01 : ℚ
  a02 : ℚ
  a10 : ℚ
  a11 : ℚ
  a12 : ℚ
  a20 : ℚ
  a21 : ℚ
  a22 : ℚ
deriving DecidableEq, Repr

def Mat3.identity : Mat3 := ⟨1, 0, 0, 0, 1, 0, 0, 0, 1⟩

def Mat3.transpose (A : Mat3) : Mat3 :=
  ⟨A.a00, A.a10, A.a20, A.a01, A.a11, A.a21, A.a02, A.a12, A.a22⟩

def Mat3.mul (A B : Mat3) : Mat3 :=
  ⟨A.a00 * B.a00 + A.a01 * B.a10 + A.a02 * B.a20,
   A.a00 * B.a01 + A.a01 * B.a11 + A.a02 * B.a21,
   A.a00 * B.a02 + A.a01 * B.a12 + A.a02 * B.a22,
   A.a10 * B.a00 + A.a11 * B.a10 + A.a12 * B.a20,
   A.a10 * B.a01 + A.a11 * B.a11 + A.a12 * B.a21,
   A.a10 * B.a02 + A.a11 * B.a12 + A.a12 * B.a22,
   A.a20 * B.a00 + A.a21 * B.a10 + A.a22 * B.a20,
   A.a20 * B.a01 + A.a21 * B.a11 + A.a22 * B.a21,
   A.a20 * B.a02 + A.a21 * B.a12 + A.a22 * B.a22⟩

def Mat3.mulVec (A : Mat3) (v : Vec3) : Vec3 :=
  ⟨A.a00 * v.x + A.a01 * v.y + A.a02 * v.z,
   A.a10 * v.x + A.a11 * v.y + A.a12 * v.z,
   A.a20 * v.x + A.a21 * v.y + A.a22 * v.z⟩

/-- Orthonormality of a rotation matrix: rows and columns are orthonormal
(for real orthogonal matrices the two product identities are equivalent). -/
def Mat3.orthonormal (R : Mat3) : Prop :=
  R.mul R.transpose = Mat3.identity ∧ R.transpose.mul R = Mat3.identity

instance (R : Mat3) : Decidable R.orthonormal := by
  unfold Mat3.orthonormal; infer_instance

/-- Modelled from the spec: `quat_to_mat` of the missing `so3` module
(§4.2), the standard (w,x,y,z) unit-quaternion to rotation-matrix formula. -/
def quat_to_mat (w x y z : ℚ) : Mat3 :=
  ⟨1 - 2 * (y * y + z * z), 2 * (x * y - w * z), 2 * (x * z + w * y),
   2 * (x * y + w * z), 1 - 2 * (x * x + z * z), 2 * (y * z - w * x),
   2 * (x * z - w * y), 2 * (y * z + w * x), 1 - 2 * (x * x + y * y)⟩

/-- Modelled from the spec: the SE3 rigid transform of the missing `se3`
module (§3, §4.1): a rotation plus a translation. -/
structure SE3 where
  rotation : Mat3
  translation : Vec3
deriving DecidableEq, Repr

/-- Modelled from the spec (§4.1): `R_new = R_self · R_other`,
`t_new = R_self · t_other + t_self`. -/
def SE3.compose (a b : SE3) : SE3 :=
  ⟨a.rotation.mul b.rotation,
   (a.rotation.mulVec b.translation).add a.translation⟩

/-- Modelled from the spec (§3, §4.1): rotation transpose,
translation `−R⁻¹ t = −Rᵀ t`. -/
def SE3.inverse (t : SE3) : SE3 :=
  ⟨t.rotation.transpose, (t.rotation.transpose.mulVec t.translation).neg⟩

/-- Modelled from the spec (§4.1): apply `p' = R·p + t` to every row. -/
def SE3.transform_from (t : SE3) (pts : List Vec3) : List Vec3 :=
  pts.map (fun p => (t.rotation.mulVec p).add t.translation)

def SE3.identityT : SE3 := ⟨Mat3.identity, Vec3.zero⟩

/-! ## Tabular frame model

A polars `DataFrame` is modelled as an ordered association list of named
float32 columns.  `getCol` is by-name lookup (first match), `withColumn`
is polars `with_column`: replace the column of the same name in place,
else append at the end. -/

abbrev Col := String × List ℚ

abbrev DataFrame := List Col

def getCol : DataFrame → String → Option (List ℚ)
  | [], _ => none
  | c :: df, name => if c.1 = name then some c.2 else getCol df name

def withColumn (df : DataFrame) (c : Col) : DataFrame :=
  if df.any (fun d => d.1 == c.1) then
    df.map (fun d => if d.1 = c.1 then c else d)
  else df ++ [c]

def zipVec3 : List ℚ → List ℚ → List ℚ → List Vec3
  | x :: xs, y :: ys, z :: zs => ⟨x, y, z⟩ :: zipVec3 xs ys zs
  | _, _, _ => []

/-- Embedding of `frame_to_ndarray(frame, cols(["x","y","z"]))`: project the x, y, z
columns of a sweep frame into a dense row-major point array.  `none`
models the panic on a missing column or a malformed frame. -/
def getXyz (df : DataFrame) : Option (List Vec3) :=
  match getCol df "x", getCol df "y", getCol df "z" with
  | some xs, some ys, some zs =>
      if xs.length = ys.length ∧ ys.length = zs.length then
        some (zipVec3 xs ys zs)
      else none
  | _, _, _ => none

/-- Embedding of `with_columns(vec![lit(x_ref), lit(y_ref), lit(z_ref)])`: overwrite the
x, y, z columns in place with the transformed coordinates. -/
def setXyz (df : DataFrame) (pts : List Vec3) : DataFrame :=
  withColumn (withColumn (withColumn df ("x", pts.map Vec3.x))
    ("y", pts.map Vec3.y)) ("z", pts.map Vec3.z)

def sameSchema (a b : DataFrame) : Bool :=
  a.map Prod.fst == b.map Prod.fst

def appendFrames (a b : DataFrame) : DataFrame :=
  List.zipWith (fun c d => (c.1, c.2 ++ d.2)) a b

/-- polars `concat(frames, true, true)` followed by `unwrap`: vertical
concatenation in list order; `none` models the fatal error on an empty
input list or on mismatched schemas. -/
def concatFrames : List DataFrame → Option DataFrame
  | [] => none
  | d :: rest =>
      if rest.all (fun e => sameSchema d e) then some (rest.foldl appendFrames d)
      else none

/-! ## Pose table and pose resolution -/

/-- One row of `city_SE3_egovehicle.feather`. -/
structure PoseRow where
  timestamp_ns : Nat
  tx_m : ℚ
  ty_m : ℚ
  tz_m : ℚ
  qw : ℚ
  qx : ℚ
  qy : ℚ
  qz : ℚ
deriving DecidableEq, Repr

/-- Embedding of `frame_to_ndarray_with_filter(poses, cols([...]), col("timestamp_ns").eq(ts))`
followed by slicing row 0: filter to the rows with an exact timestamp
match and take the first.  `none` models the out-of-bounds panic of
`slice(s![0, ..])` on the empty result. -/
def resolvePoseRow (poses : List PoseRow) (ts : Nat) : Option PoseRow :=
  (poses.filter (fun r => r.timestamp_ns == ts)).head?

def poseToSE3 (r : PoseRow) : SE3 :=
  ⟨quat_to_mat r.qw r.qx r.qy r.qz, ⟨r.tx_m, r.ty_m, r.tz_m⟩⟩

/-! ## u64 arithmetic of the time offset -/

/-- Unsigned 64-bit subtraction `a - b` (release semantics: wrap modulo
`2 ^ 64`), for `a, b < 2 ^ 64`. -/
def u64sub (a b : Nat) : Nat :=
  (a + 2 ^ 64 - b) % 2 ^ 64

/-- The per-point value of the appended column:
`(timestamp_ns - timestamp_ns_i) as f32 * 1e-9`. -/
def timedeltaVal (qts ts : Nat) : ℚ :=
  (u64sub qts ts : ℚ) * (1 / 1000000000)

/-! ## The sweep accumulator `read_lidar` -/

/-- The session-metadata `file_index` frame: polars `ChunkedArray::get`
yields `none` on an out-of-bounds index or a null entry, and the source
calls `.unwrap()` on it. -/
structure FileIndex where
  log_id : Nat → Option String
  timestamp_ns : Nat → Option Nat

/-- Embedding of `i64::max(idx as i64 - num_accum_sweeps as i64 + 1, 0) as usize`
(exact for `idx, num_accum_sweeps < 2 ^ 63`). -/
def startIdx (idx W : Nat) : Nat :=
  (max ((idx : Int) - (W : Int) + 1) 0).toNat

/-- Embedding of `(start_idx..=idx)`: the inclusive candidate row range. -/
def candidateRange (idx W : Nat) : List Nat :=
  List.range' (startIdx idx W) (idx + 1 - startIdx idx W)

/-- Map a fallible per-element computation over a list, aborting the whole
call on the first failure — the embedding of the parallel map whose
workers `.unwrap()` (a panic in any worker aborts the call; the collected
order is the input order, independent of worker completion order). -/
def optMapM (f : α → Option β) : List α → Option (List β)
  | [] => some []
  | a :: as =>
      match f a, optMapM f as with
      | some b, some bs => some (b :: bs)
      | _, _ => none

/-- The `filter_map` stage: look up `log_id` for every candidate index
(`.unwrap()`: `none` aborts) and tag each index with it. -/
def taggedCandidates (fi : FileIndex) (idx W : Nat) : Option (List (Nat × String)) :=
  optMapM (fun i => (fi.log_id i).map (fun l => (i, l))) (candidateRange idx W)

/-- The candidate indices whose session identifier equals the target one. -/
def survivors (fi : FileIndex) (lg : String) (idx W : Nat) : Option (List Nat) :=
  (taggedCandidates fi idx W).map
    (fun t => (t.filter (fun p => p.2 == lg)).map Prod.fst)

/-- The per-sweep body of the parallel map, after the sweep frame has been
loaded: compute the time-offset series, motion-compensate the x, y, z
columns unless the sweep's own timestamp equals the query timestamp, and
append the `timedelta_ns` column. -/
def processSweep (poses : List PoseRow) (qts : Nat) (ego_se3_city : SE3)
    (ts_i : Nat) (lidar : DataFrame) : Option DataFrame :=
  match getXyz lidar with
  | none => none
  | some xyz =>
      let td : Col := ("timedelta_ns", List.replicate xyz.length (timedeltaVal qts ts_i))
      if ts_i ≠ qts then
        match resolvePoseRow poses ts_i with
        | none => none
        | some pr =>
            let ego_ref_se3_ego_i := ego_se3_city.compose (poseToSE3 pr)
            some (withColumn (setXyz lidar (ego_ref_se3_ego_i.transform_from xyz)) td)
      else some (withColumn lidar td)

/-- Load one surviving sweep: `timestamps.get(i).unwrap()`, read the sweep
file at that timestamp (`lidarData` stands for the on-disk frame store,
`none` = missing or malformed file), then process it. -/
def loadSweep (fi : FileIndex) (poses : List PoseRow) (lidarData : Nat → Option DataFrame)
    (qts : Nat) (ego_se3_city : SE3) (i : Nat) : Option DataFrame :=
  match fi.timestamp_ns i with
  | none => none
  | some ts_i =>
      match lidarData ts_i with
      | none => none
      | some lidar => processSweep poses qts ego_se3_city ts_i lidar

/-- The sweep accumulator `read_lidar` of `io.rs`.  `none` models every
panic path (`unwrap`, out-of-bounds slice) of the source. -/
def read_lidar (fi : FileIndex) (poses : List PoseRow)
    (lidarData : Nat → Option DataFrame) (log_id : String) (timestamp_ns : Nat)
    (idx W : Nat) : Option DataFrame :=
  match resolvePoseRow poses timestamp_ns with
  | none => none
  | some pose_ref =>
      let ego_se3_city := (poseToSE3 pose_ref).inverse
      match survivors fi log_id idx W with
      | none => none
      | some surv =>
          match optMapM (loadSweep fi poses lidarData timestamp_ns ego_se3_city) surv with
          | none => none
          | some lidar_list => concatFrames lidar_list.reverse

/-! ## Concrete example inputs

A two-sweep session mirroring the end-to-end example of spec §8: sweeps at
timestamps 10 and 20 with the single sensor-frame point (1, 0, 0), the
vehicle translated by (2, 0, 0) between the captures, no rotation. -/

def exPoses : List PoseRow :=
  [⟨10, 0, 0, 0, 1, 0, 0, 0⟩, ⟨20, 2, 0, 0, 1, 0, 0, 0⟩]

/-- A pose table with two rows sharing timestamp 20 (ambiguous match). -/
def exPosesDup : List PoseRow :=
  [⟨20, 2, 0, 0, 1, 0, 0, 0⟩, ⟨20, 99, 0, 0, 1, 0, 0, 0⟩]

def exFrame : DataFrame := [("x", [1]), ("y", [0]), ("z", [0])]

def exLidarData : Nat → Option DataFrame :=
  fun ts => if ts = 10 ∨ ts = 20 then some exFrame else none

/-- Both metadata rows belong to session "A". -/
def exFI : FileIndex :=
  ⟨fun i => if i ≤ 1 then some "A" else none,
   fun i => if i = 0 then some 10 else if i = 1 then some 20 else none⟩

/-- The accumulated output frame on the example inputs: the query sweep's
rows come first, the motion-compensated older sweep's rows last. -/
def exOut : DataFrame :=
  [("x", [1, -1]), ("y", [0, 0]), ("z", [0, 0]),
   ("timedelta_ns", [0, 1 / 100000000])]

/-- A session boundary inside the window: row 0 belongs to session "B",
row 1 (the query row) to session "A". -/
def exFI2 : FileIndex :=
  ⟨fun i => if i = 0 then some "B" else if i = 1 then some "A" else none,
   fun i => if i = 0 then some 10 else if i = 1 then some 20 else none⟩

/-- No metadata row matches the target session "A". -/
def exFI3 : FileIndex :=
  ⟨fun i => if i ≤ 1 then some "B" else none,
   fun i => if i = 0 then some 10 else if i = 1 then some 20 else none⟩

/-- The query row (index 1) has a different session and a null timestamp;
row 0 belongs to the target session. -/
def exFI5 : FileIndex :=
  ⟨fun i => if i = 0 then some "A" else if i = 1 then some "B" else none,
   fun i => if i = 0 then some 10 else none⟩

/-- The accumulated output when only the older sweep (timestamp 10)
contributes. -/
def exOutOld : DataFrame :=
  [("x", [-1]), ("y", [0]), ("z", [0]), ("timedelta_ns", [1 / 100000000])]

/-- The accumulated output when only the query sweep (timestamp 20)
contributes. -/
def exOutQuery : DataFrame :=
  [("x", [1]), ("y", [0]), ("z", [0]), ("timedelta_ns", [0])]

/-! ## General lemmas about the frame model and the accumulator -/

theorem getCol_map_replace_self (df : DataFrame) (nm : String) (v : List ℚ)
    (h : df.any (fun d => d.1 == nm) = true) :
    getCol (df.map (fun d => if d.1 = nm then (nm, v) else d)) nm = some v := by
  induction df with
  | nil => simp at h
  | cons d rest ih =>
      simp only [List.any_cons, Bool.or_eq_true, beq_iff_eq] at h
      by_cases hd : d.1 = nm
      · simp [getCol, hd]
      · simp only [List.map_cons, if_neg hd, getCol]
        exact ih (by simp [h.resolve_left hd])

theorem getCol_append_single (df : DataFrame) (nm : String) (v : List ℚ)
    (h : df.any (fun d => d.1 == nm) = false) :
    getCol (df ++ [(nm, v)]) nm = some v := by
  induction df with
  | nil => simp [getCol]
  | cons d rest ih =>
      simp only [List.any_cons, Bool.or_eq_false_iff] at h
      simp only [List.cons_append, getCol]
      rw [if_neg (by simpa using h.1)]
      exact ih h.2

theorem getCol_withColumn_self (df : DataFrame) (nm : String) (v : List ℚ) :
    getCol (withColumn df (nm, v)) nm = some v := by
  unfold withColumn
  cases hc : df.any (fun d => d.1 == (nm, v).1) with
  | false =>
      rw [if_neg Bool.false_ne_true]
      exact getCol_append_single df nm v hc
  | true =>
      rw [if_pos rfl]
      exact getCol_map_replace_self df nm v hc

theorem getCol_map_replace_ne (df : DataFrame) (nm : String) (v : List ℚ)
    (n : String) (h : n ≠ nm) :
    getCol (df.map (fun d => if d.1 = nm then (nm, v) else d)) n = getCol df n := by
  induction df with
  | nil => simp
  | cons d rest ih =>
      by_cases hd : d.1 = nm
      · simp only [List.map_cons, if_pos hd, getCol]
        rw [if_neg (fun hc => h hc.symm), if_neg (fun hc => h (hd ▸ hc).symm)]
        exact ih
      · simp only [List.map_cons, if_neg hd, getCol]
        by_cases hdn : d.1 = n <;> simp [hdn, ih]

theorem getCol_append_single_ne (df : DataFrame) (nm : String) (v : List ℚ)
    (n : String) (h : n ≠ nm) :
    getCol (df ++ [(nm, v)]) n = getCol df n := by
  induction df with
  | nil =>
      simp only [List.nil_append, getCol]
      rw [if_neg (fun hc => h hc.symm)]
  | cons d rest ih =>
      simp only [List.cons_append, getCol]
      by_cases hdn : d.1 = n <;> simp [hdn, ih]

theorem getCol_withColumn_ne (df : DataFrame) (nm : String) (v : List ℚ)
    (n : String) (h : n ≠ nm) :
    getCol (withColumn df (nm, v)) n = getCol df n := by
  unfold withColumn
  cases hc : df.any (fun d => d.1 == (nm, v).1) with
  | false =>
      rw [if_neg Bool.false_ne_true]
      exact getCol_append_single_ne df nm v n h
  | true =>
      rw [if_pos rfl]
      exact getCol_map_replace_ne df nm v n h

theorem zipVec3_proj (pts : List Vec3) :
    zipVec3 (pts.map Vec3.x) (pts.map Vec3.y) (pts.map Vec3.z) = pts := by
  induction pts with
  | nil => rfl
  | cons p ps ih => cases p; simp [zipVec3, ih]

theorem getXyz_setXyz (df : DataFrame) (pts : List Vec3) :
    getXyz (setXyz df pts) = some pts := by
  unfold getXyz setXyz
  rw [getCol_withColumn_ne _ _ _ _ (by decide), getCol_withColumn_ne _ _ _ _ (by decide),
    getCol_withColumn_self, getCol_withColumn_ne _ _ _ _ (by decide),
    getCol_withColumn_self, getCol_withColumn_self]
  simp [zipVec3_proj]

theorem optMapM_isSome_each {α β : Type} {f : α → Option β} :
    ∀ {l : List α} {t : List β}, optMapM f l = some t → ∀ a ∈ l, (f a).isSome = true := by
  intro l
  induction l with
  | nil => intro t _ a ha; simp at ha
  | cons x xs ih =>
      intro t h a ha
      cases hx : f x with
      | none => simp [optMapM, hx] at h
      | some b =>
          cases hxs : optMapM f xs with
          | none => simp [optMapM, hx, hxs] at h
          | some ts =>
              rcases List.mem_cons.mp ha with rfl | ha2
              · simp [hx]
              · exact ih hxs a ha2

theorem optMapM_eq_none {α β : Type} {f : α → Option β} :
    ∀ {l : List α} (a : α), a ∈ l → f a = none → optMapM f l = none := by
  intro l
  induction l with
  | nil => intro a ha; simp at ha
  | cons x xs ih =>
      intro a ha hfa
      rcases List.mem_cons.mp ha with rfl | ha2
      · simp [optMapM, hfa]
      · rw [optMapM, ih a ha2 hfa]
        cases f x <;> rfl

theorem optMapM_tag_fst {g : Nat → Option String} :
    ∀ {l : List Nat} {t : List (Nat × String)},
      optMapM (fun i => (g i).map (fun s => (i, s))) l = some t → t.map Prod.fst = l := by
  intro l
  induction l with
  | nil => intro t h; simp [optMapM] at h; simp [← h]
  | cons x xs ih =>
      intro t h
      cases hx : g x with
      | none => simp [optMapM, hx] at h
      | some s =>
          cases hxs : optMapM (fun i => (g i).map (fun s => (i, s))) xs with
          | none => simp [optMapM, hx, hxs] at h
          | some ts =>
              simp only [optMapM, hx, hxs, Option.map_some'] at h
              cases h
              simp [ih hxs]

theorem optMapM_getLast {α β : Type} {f : α → Option β} :
    ∀ {l : List α} {t : List β} {a : α}, optMapM f l = some t → l.getLast? = some a →
      ∃ b, f a = some b ∧ t.getLast? = some b := by
  intro l
  induction l with
  | nil => intro t a _ ha; simp at ha
  | cons x xs ih =>
      intro t a h ha
      cases hx : f x with
      | none => simp [optMapM, hx] at h
      | some b0 =>
          cases hxs : optMapM f xs with
          | none => simp [optMapM, hx, hxs] at h
          | some ts =>
              simp only [optMapM, hx, hxs] at h
              cases xs with
              | nil =>
                  simp only [optMapM] at hxs
                  cases hxs
                  simp only [List.getLast?_singleton] at ha
                  cases ha
                  cases h
                  exact ⟨b0, hx, rfl⟩
              | cons y ys =>
                  rw [List.getLast?_cons_cons] at ha
                  obtain ⟨b, hb, hlast⟩ := ih hxs ha
                  refine ⟨b, hb, ?_⟩
                  cases h
                  cases ts with
                  | nil => simp at hlast
                  | cons z zs => rw [List.getLast?_cons_cons]; exact hlast

theorem startIdx_le (idx W : Nat) : startIdx idx W ≤ idx + 1 := by
  unfold startIdx
  rcases le_total ((idx : Int) - (W : Int) + 1) 0 with hc | hc
  · rw [max_eq_right hc]; simp
  · rw [max_eq_left hc]; omega

theorem mem_candidateRange (idx W i : Nat) :
    i ∈ candidateRange idx W ↔ startIdx idx W ≤ i ∧ i ≤ idx := by
  unfold candidateRange
  rw [List.mem_range'_1]
  have h := startIdx_le idx W
  omega

theorem candidateRange_length_le (idx W : Nat) : (candidateRange idx W).length ≤ W := by
  unfold candidateRange
  rw [List.length_range']
  unfold startIdx
  rcases le_total ((idx : Int) - (W : Int) + 1) 0 with hc | hc
  · rw [max_eq_right hc]; omega
  · rw [max_eq_left hc]; omega

theorem range'_getLast? (n s : Nat) (h : n ≠ 0) :
    (List.range' s n).getLast? = some (s + n - 1) := by
  obtain ⟨m, rfl⟩ := Nat.exists_eq_succ_of_ne_zero h
  rw [List.range'_concat, List.getLast?_concat]
  congr 1
  omega

theorem candidateRange_getLast (idx W : Nat) (h : candidateRange idx W ≠ []) :
    (candidateRange idx W).getLast? = some idx := by
  have hs := startIdx_le idx W
  unfold candidateRange at *
  have hn : idx + 1 - startIdx idx W ≠ 0 := by
    intro h0; rw [h0] at h; simp at h
  rw [range'_getLast? _ _ hn]
  congr 1
  omega

theorem getLast?_filter {α : Type} (p : α → Bool) :
    ∀ (l : List α) (a : α), l.getLast? = some a → p a = true →
      (l.filter p).getLast? = some a := by
  intro l
  induction l with
  | nil => intro a ha _; simp at ha
  | cons x xs ih =>
      intro a hl hp
      cases xs with
      | nil =>
          simp only [List.getLast?_singleton] at hl
          cases hl
          simp [List.filter, hp]
      | cons y ys =>
          rw [List.getLast?_cons_cons] at hl
          have h2 := ih a hl hp
          rw [List.filter_cons]
          by_cases hx : p x
          · rw [if_pos hx]
            cases h3 : List.filter p (y :: ys) with
            | nil => rw [h3] at h2; simp at h2
            | cons z zs =>
                rw [h3] at h2
                rw [List.getLast?_cons_cons]
                exact h2
          · rw [if_neg hx]; exact h2

/-- Claim C8: for every SE3 transform `T` (with orthonormal rotation, the
construction invariant of §3), `T.compose T.inverse` is the identity
transform: identity rotation and zero translation.  Over the exact
rational model the equality is exact, hence in particular within any
floating-point tolerance. -/
theorem se3_compose_inverse_is_identity (T : SE3) (h : T.rotation.orthonormal) :
    T.compose T.inverse = SE3.identityT := by
  obtain ⟨⟨a00, a01, a02, a10, a11, a12, a20, a21, a22⟩, ⟨t0, t1, t2⟩⟩ := T
  obtain ⟨h1, _h2⟩ := h
  simp only [Mat3.mul, Mat3.transpose, Mat3.identity, Mat3.mk.injEq] at h1
  obtain ⟨e00, e01, e02, e10, e11, e12, e20, e21, e22⟩ := h1
  simp only [SE3.compose, SE3.inverse, SE3.identityT, Mat3.mul, Mat3.transpose,
    Mat3.identity, Mat3.mulVec, Vec3.add, Vec3.neg, Vec3.zero, SE3.mk.injEq,
    Mat3.mk.injEq, Vec3.mk.injEq]
  refine ⟨⟨?_, ?_, ?_, ?_, ?_, ?_, ?_, ?_, ?_⟩, ?_, ?_, ?_⟩
  · linear_combination e00
  · linear_combination e01
  · linear_combination e02
  · linear_combination e10
  · linear_combination e11
  · linear_combination e12
  · linear_combination e20
  · linear_combination e21
  · linear_combination e22
  · linear_combination (-t0) * e00 + (-t1) * e01 + (-t2) * e02
  · linear_combination (-t0) * e10 + (-t1) * e11 + (-t2) * e12
  · linear_combination (-t0) * e20 + (-t1) * e21 + (-t2) * e22

/-- Witness for C8 at a concrete transform: identity rotation with
translation (1, 2, 3). -/
theorem se3_compose_inverse_is_identity_witness :
    SE3.compose ⟨Mat3.identity, ⟨1, 2, 3⟩⟩ (SE3.inverse ⟨Mat3.identity, ⟨1, 2, 3⟩⟩)
      = SE3.identityT :=
  se3_compose_inverse_is_identity ⟨Mat3.identity, ⟨1, 2, 3⟩⟩
    (by constructor <;> (simp only [Mat3.orthonormal, Mat3.mul, Mat3.transpose,
      Mat3.identity, Mat3.mk.injEq]; norm_num))

/-! ## Concrete evaluations on the example inputs -/

theorem ex_pose_q : resolvePoseRow exPoses 20 = some ⟨20, 2, 0, 0, 1, 0, 0, 0⟩ := rfl

theorem ex_pose_old : resolvePoseRow exPoses 10 = some ⟨10, 0, 0, 0, 1, 0, 0, 0⟩ := rfl

theorem ex_quat : quat_to_mat 1 0 0 0 = Mat3.identity := by
  simp only [quat_to_mat, Mat3.identity, Mat3.mk.injEq]; norm_num

theorem ex_getXyz : getXyz exFrame = some [⟨1, 0, 0⟩] := rfl

theorem ex_ego : (poseToSE3 ⟨20, 2, 0, 0, 1, 0, 0, 0⟩).inverse = ⟨Mat3.identity, ⟨-2, 0, 0⟩⟩ := by
  simp only [poseToSE3, SE3.inverse, ex_quat, Mat3.transpose, Mat3.identity,
    Mat3.mulVec, Vec3.neg, SE3.mk.injEq, Mat3.mk.injEq, Vec3.mk.injEq]
  norm_num

theorem ex_T_old :
    SE3.compose ⟨Mat3.identity, ⟨-2, 0, 0⟩⟩ (poseToSE3 ⟨10, 0, 0, 0, 1, 0, 0, 0⟩)
      = ⟨Mat3.identity, ⟨-2, 0, 0⟩⟩ := by
  simp only [poseToSE3, SE3.compose, ex_quat, Mat3.mul, Mat3.identity, Mat3.mulVec,
    Vec3.add, SE3.mk.injEq, Mat3.mk.injEq, Vec3.mk.injEq]
  norm_num

theorem ex_transform :
    SE3.transform_from ⟨Mat3.identity, ⟨-2, 0, 0⟩⟩ [⟨1, 0, 0⟩] = [⟨-1, 0, 0⟩] := by
  simp only [SE3.transform_from, Mat3.identity, Mat3.mulVec, Vec3.add, List.map,
    Vec3.mk.injEq]
  norm_num

theorem ex_td_old : timedeltaVal 20 10 = 1 / 100000000 := by
  norm_num [timedeltaVal, u64sub]

theorem ex_td_q : timedeltaVal 20 20 = 0 := by
  norm_num [timedeltaVal, u64sub]

theorem ex_process_old :
    processSweep exPoses 20 ⟨Mat3.identity, ⟨-2, 0, 0⟩⟩ 10 exFrame = some exOutOld := by
  simp only [processSweep, ex_getXyz, ex_pose_old, ex_td_old]
  rw [if_pos (by decide)]
  simp only [ex_T_old, ex_transform]
  simp [setXyz, withColumn, exFrame, exOutOld]

theorem ex_process_q :
    processSweep exPoses 20 ⟨Mat3.identity, ⟨-2, 0, 0⟩⟩ 20 exFrame = some exOutQuery := by
  simp only [processSweep, ex_getXyz, ex_td_q]
  rw [if_neg (by decide)]
  simp [withColumn, exFrame, exOutQuery]

theorem ex_surv : survivors exFI "A" 1 2 = some [0, 1] := rfl

theorem ex_read : read_lidar exFI exPoses exLidarData "A" 20 1 2 = some exOut := by
  simp only [read_lidar, ex_pose_q, ex_ego, ex_surv, optMapM, loadSweep]
  simp [exFI, exLidarData, ex_process_old, ex_process_q, concatFrames, sameSchema,
    appendFrames, exOut, exOutOld, exOutQuery]

theorem ex_surv2 : survivors exFI2 "A" 1 2 = some [1] := rfl

theorem ex_read2 : read_lidar exFI2 exPoses exLidarData "A" 20 1 2 = some exOutQuery := by
  simp only [read_lidar, ex_pose_q, ex_ego, ex_surv2, optMapM, loadSweep]
  simp [exFI2, exLidarData, ex_process_q, concatFrames, sameSchema, appendFrames]

theorem ex_surv3 : survivors exFI3 "A" 1 2 = some [] := rfl

theorem ex_surv5 : survivors exFI5 "A" 1 2 = some [0] := rfl

theorem ex_read5 : read_lidar exFI5 exPoses exLidarData "A" 20 1 2 = some exOutOld := by
  simp only [read_lidar, ex_pose_q, ex_ego, ex_surv5, optMapM, loadSweep]
  simp [exFI5, exLidarData, ex_process_old, concatFrames, sameSchema, appendFrames]

theorem getXyz_withColumn_other (df : DataFrame) (nm : String) (v : List ℚ)
    (h1 : ("x" : String) ≠ nm) (h2 : ("y" : String) ≠ nm) (h3 : ("z" : String) ≠ nm) :
    getXyz (withColumn df (nm, v)) = getXyz df := by
  unfold getXyz
  rw [getCol_withColumn_ne _ _ _ _ h1, getCol_withColumn_ne _ _ _ _ h2,
    getCol_withColumn_ne _ _ _ _ h3]

theorem u64sub_of_le (a b : Nat) (ha : a < 2 ^ 64) (h : b ≤ a) :
    u64sub a b = a - b := by
  unfold u64sub; omega

theorem u64sub_of_gt (a b : Nat) (ha : a < 2 ^ 64) (hb : b < 2 ^ 64) (h : a < b) :
    u64sub a b = 2 ^ 64 - (b - a) := by
  unfold u64sub; omega

theorem u64sub_self (a : Nat) : u64sub a a = 0 := by
  unfold u64sub; omega

theorem timedeltaVal_of_le (qts ts : Nat) (hq : qts < 2 ^ 64) (h : ts ≤ qts) :
    timedeltaVal qts ts = ((qts - ts : Nat) : ℚ) * (1 / 1000000000) := by
  unfold timedeltaVal
  rw [u64sub_of_le qts ts hq h]

theorem timedeltaVal_self (qts : Nat) : timedeltaVal qts qts = 0 := by
  unfold timedeltaVal
  rw [u64sub_self]
  norm_num

theorem timedeltaVal_nonneg (qts ts : Nat) : 0 ≤ timedeltaVal qts ts := by
  unfold timedeltaVal
  apply mul_nonneg (by positivity) (by norm_num)

theorem processSweep_timedelta (poses : List PoseRow) (qts : Nat) (ego : SE3)
    (ts_i : Nat) (lidar : DataFrame) (out : DataFrame)
    (hp : processSweep poses qts ego ts_i lidar = some out) :
    ∃ xyz, getXyz lidar = some xyz ∧
      getCol out "timedelta_ns"
        = some (List.replicate xyz.length (timedeltaVal qts ts_i)) := by
  unfold processSweep at hp
  cases hx : getXyz lidar with
  | none => simp only [hx] at hp; exact Option.noConfusion hp
  | some xyz =>
      simp only [hx] at hp
      refine ⟨xyz, rfl, ?_⟩
      by_cases hne : ts_i ≠ qts
      · rw [if_pos hne] at hp
        cases hr : resolvePoseRow poses ts_i with
        | none => simp only [hr] at hp; exact Option.noConfusion hp
        | some pr =>
            simp only [hr] at hp
            cases hp
            exact getCol_withColumn_self _ _ _
      · rw [if_neg hne] at hp
        cases hp
        exact getCol_withColumn_self _ _ _

theorem tag_filter_map {g : Nat → Option String} (lg : String) :
    ∀ {l : List Nat} {t : List (Nat × String)},
      optMapM (fun i => (g i).map (fun s => (i, s))) l = some t →
      (t.filter (fun p => p.2 == lg)).map Prod.fst
        = l.filter (fun i => g i == some lg) := by
  intro l
  induction l with
  | nil => intro t h; simp only [optMapM] at h; cases h; rfl
  | cons x xs ih =>
      intro t h
      cases hx : g x with
      | none => simp [optMapM, hx] at h
      | some s =>
          cases hxs : optMapM (fun i => (g i).map (fun s => (i, s))) xs with
          | none => simp [optMapM, hx, hxs] at h
          | some ts =>
              simp only [optMapM, hx, hxs, Option.map_some'] at h
              cases h
              rw [List.filter_cons, List.filter_cons]
              by_cases hs : s = lg
              · subst hs
                simp only [beq_self_eq_true, if_pos, hx]
                simp only [List.map_cons, ih hxs]
              · rw [if_neg (by simpa using hs), if_neg (by simp [hx, hs])]
                exact ih hxs

theorem survivors_eq (fi : FileIndex) (lg : String) (idx W : Nat) (surv : List Nat)
    (h : survivors fi lg idx W = some surv) :
    surv = (candidateRange idx W).filter (fun i => fi.log_id i == some lg) := by
  unfold survivors at h
  cases ht : taggedCandidates fi idx W with
  | none => rw [ht] at h; exact Option.noConfusion h
  | some t =>
      rw [ht, Option.map_some'] at h
      cases h
      exact tag_filter_map lg ht

theorem read_lidar_eq_none_of_survivors (fi : FileIndex) (poses : List PoseRow)
    (ld : Nat → Option DataFrame) (lg : String) (qts idx W : Nat)
    (hs : survivors fi lg idx W = some [] ∨ survivors fi lg idx W = none) :
    read_lidar fi poses ld lg qts idx W = none := by
  unfold read_lidar
  cases hq : resolvePoseRow poses qts with
  | none => rfl
  | some qr =>
      rcases hs with hs | hs
      · simp only [hs, optMapM]
        rfl
      · simp only [hs]

theorem candidateRange_eq_nil (idx W : Nat) (h : idx < startIdx idx W) :
    candidateRange idx W = [] := by
  unfold candidateRange
  have : idx + 1 - startIdx idx W = 0 := by omega
  rw [this]
  rfl

theorem survivors_none_of_log_none (fi : FileIndex) (lg : String) (idx W : Nat)
    (h : fi.log_id idx = none) (hle : startIdx idx W ≤ idx) :
    survivors fi lg idx W = none := by
  unfold survivors taggedCandidates
  rw [optMapM_eq_none idx ((mem_candidateRange idx W idx).mpr ⟨hle, le_refl idx⟩)
    (by rw [h]; rfl)]
  rfl

theorem survivors_of_range_nil (fi : FileIndex) (lg : String) (idx W : Nat)
    (h : candidateRange idx W = []) :
    survivors fi lg idx W = some [] := by
  unfold survivors taggedCandidates
  rw [h]
  rfl

theorem concatFrames_ne_nil (l : List DataFrame) (df : DataFrame)
    (h : concatFrames l = some df) : l ≠ [] := by
  intro h0
  subst h0
  exact Option.noConfusion h

theorem optMapM_nil_of_nil {α β : Type} {f : α → Option β} {t : List β}
    (h : optMapM f [] = some t) : t = [] := by
  simp only [optMapM] at h
  cases h
  rfl

/-- Claim C1: in `read_lidar`, for a contributing sweep whose timestamp
differs from the query timestamp, the applied motion-compensating
transform is `(poseToSE3 query_row).inverse.compose (poseToSE3 sweep_row)`
(i.e. query_frame⁻¹ · sweep_pose), and the transformed coordinates
overwrite the sweep's x, y, z columns in the output frame. -/
theorem read_lidar_motion_compensation
    (poses : List PoseRow) (qts ts_i : Nat) (lidar : DataFrame)
    (qr sp : PoseRow) (xyz : List Vec3)
    (hq : resolvePoseRow poses qts = some qr)
    (hi : resolvePoseRow poses ts_i = some sp)
    (hne : ts_i ≠ qts)
    (hx : getXyz lidar = some xyz) :
    ∃ out, processSweep poses qts ((poseToSE3 qr).inverse) ts_i lidar = some out ∧
      getXyz out
        = some ((((poseToSE3 qr).inverse).compose (poseToSE3 sp)).transform_from xyz) := by
  unfold processSweep
  simp only [hx]
  rw [if_pos hne]
  simp only [hi]
  refine ⟨_, rfl, ?_⟩
  rw [getXyz_withColumn_other _ _ _ (by decide) (by decide) (by decide), getXyz_setXyz]

/-- Witness for C1 on the concrete example: the sweep at timestamp 10
against the query at timestamp 20. -/
theorem read_lidar_motion_compensation_witness :
    ∃ out, processSweep exPoses 20 ((poseToSE3 ⟨20, 2, 0, 0, 1, 0, 0, 0⟩).inverse) 10 exFrame
        = some out ∧
      getXyz out
        = some ((((poseToSE3 ⟨20, 2, 0, 0, 1, 0, 0, 0⟩).inverse).compose
            (poseToSE3 ⟨10, 0, 0, 0, 1, 0, 0, 0⟩)).transform_from [⟨1, 0, 0⟩]) :=
  read_lidar_motion_compensation exPoses 20 10 exFrame _ _ _ rfl rfl (by decide) rfl

/-- Claim C5: when a sweep's own timestamp equals the query timestamp,
motion compensation is skipped: the x, y, z columns of the accumulated
sweep are those of the input frame, and the appended time offset is
exactly 0. -/
theorem read_lidar_skip_compensation (poses : List PoseRow) (qts : Nat) (ego : SE3)
    (lidar : DataFrame) (xyz : List Vec3)
    (hx : getXyz lidar = some xyz) :
    ∃ out, processSweep poses qts ego qts lidar = some out ∧
      getCol out "x" = getCol lidar "x" ∧
      getCol out "y" = getCol lidar "y" ∧
      getCol out "z" = getCol lidar "z" ∧
      getCol out "timedelta_ns" = some (List.replicate xyz.length 0) := by
  unfold processSweep
  simp only [hx]
  rw [if_neg (by simp)]
  refine ⟨_, rfl, ?_, ?_, ?_, ?_⟩
  · exact getCol_withColumn_ne _ _ _ _ (by decide)
  · exact getCol_withColumn_ne _ _ _ _ (by decide)
  · exact getCol_withColumn_ne _ _ _ _ (by decide)
  · rw [getCol_withColumn_self, timedeltaVal_self]

/-- Witness for C5: the query sweep itself (timestamp 20) on the example. -/
theorem read_lidar_skip_compensation_witness :
    ∃ out, processSweep exPoses 20 ⟨Mat3.identity, ⟨-2, 0, 0⟩⟩ 20 exFrame = some out ∧
      getCol out "x" = getCol exFrame "x" ∧
      getCol out "y" = getCol exFrame "y" ∧
      getCol out "z" = getCol exFrame "z" ∧
      getCol out "timedelta_ns" = some (List.replicate 1 0) :=
  read_lidar_skip_compensation exPoses 20 ⟨Mat3.identity, ⟨-2, 0, 0⟩⟩ exFrame [⟨1, 0, 0⟩] rfl

/-- Claim C7: an empty candidate set (no surviving row in the window, for
example when no row matches the target session) makes the accumulation
call fail fatally rather than return an empty table. -/
theorem read_lidar_empty_cand_fatal (fi : FileIndex) (poses : List PoseRow)
    (ld : Nat → Option DataFrame) (lg : String) (qts idx W : Nat)
    (hs : survivors fi lg idx W = some []) :
    read_lidar fi poses ld lg qts idx W = none :=
  read_lidar_eq_none_of_survivors fi poses ld lg qts idx W (Or.inl hs)

/-- Witness for C7: both metadata rows belong to session "B" while the
target session is "A". -/
theorem read_lidar_empty_cand_fatal_witness :
    read_lidar exFI3 exPoses exLidarData "A" 20 1 2 = none :=
  read_lidar_empty_cand_fatal exFI3 exPoses exLidarData "A" 20 1 2 rfl

/-- Claim C9: the time offset is computed by unsigned 64-bit subtraction
before the float conversion: for a sweep timestamp at most the query
timestamp the wrapped difference is the true difference and the emitted
offset is non-negative; for a sweep timestamp beyond the query timestamp
the subtraction wraps modulo `2 ^ 64` (panic in checked builds is the
other Rust semantics of the same underflow). -/
theorem timedelta_unsigned_subtraction (qts ts_i : Nat)
    (hq : qts < 2 ^ 64) (ht : ts_i < 2 ^ 64) :
    (ts_i ≤ qts → u64sub qts ts_i = qts - ts_i ∧ 0 ≤ timedeltaVal qts ts_i)
    ∧ (qts < ts_i → u64sub qts ts_i = 2 ^ 64 - (ts_i - qts))
    ∧ (∀ (poses : List PoseRow) (ego : SE3) (lidar out : DataFrame),
        processSweep poses qts ego ts_i lidar = some out →
        ∀ vs, getCol out "timedelta_ns" = some vs → ∀ v ∈ vs, 0 ≤ v) := by
  refine ⟨?_, ?_, ?_⟩
  · intro hle
    exact ⟨u64sub_of_le qts ts_i hq hle, timedeltaVal_nonneg qts ts_i⟩
  · intro hgt
    exact u64sub_of_gt qts ts_i hq ht hgt
  · intro poses ego lidar out hp vs hvs v hv
    obtain ⟨xyz, _, hcol⟩ := processSweep_timedelta poses qts ego ts_i lidar out hp
    rw [hcol] at hvs
    cases hvs
    rcases List.eq_of_mem_replicate hv with rfl
    exact timedeltaVal_nonneg qts ts_i

/-- Witness for C9 at query timestamp 20 and sweep timestamp 10. -/
theorem timedelta_unsigned_subtraction_witness :
    u64sub 20 10 = 10 ∧ 0 ≤ timedeltaVal 20 10 :=
  (timedelta_unsigned_subtraction 20 10 (by norm_num) (by norm_num)).1 (by norm_num)

/-- Counterexample to C3 as stated: on the concrete example the
accumulator's output has no column named `time_offset`; the appended
column is named `timedelta_ns`. -/
theorem time_offset_name_cex :
    (read_lidar exFI exPoses exLidarData "A" 20 1 2).isSome = true ∧
    (read_lidar exFI exPoses exLidarData "A" 20 1 2).bind
      (fun df => getCol df "time_offset") = none := by
  rw [ex_read]
  exact ⟨rfl, rfl⟩

/-- Claim C3 (amended): for every contributing sweep the accumulator
appends a per-point column named `timedelta_ns` (the spec's
`time_offset`) whose value in every row is
`(target_timestamp − sweep_timestamp) × 1e-9` seconds — for sweeps
captured no later than the target, as forced by the unsigned subtraction
— broadcast over all rows of that sweep. -/
theorem timedelta_column_value
    (poses : List PoseRow) (qts ts_i : Nat) (ego : SE3)
    (lidar out : DataFrame) (xyz : List Vec3)
    (hq : qts < 2 ^ 64) (hle : ts_i ≤ qts)
    (hx : getXyz lidar = some xyz)
    (hp : processSweep poses qts ego ts_i lidar = some out) :
    getCol out "timedelta_ns"
      = some (List.replicate xyz.length (((qts - ts_i : Nat) : ℚ) * (1 / 1000000000))) := by
  obtain ⟨xyz2, hx2, hcol⟩ := processSweep_timedelta poses qts ego ts_i lidar out hp
  rw [hx] at hx2
  cases hx2
  rw [hcol, timedeltaVal_of_le qts ts_i hq hle]

/-- Witness for the amended C3: the sweep at timestamp 10 under the query
at timestamp 20 carries the broadcast value `(20 − 10) × 1e-9`. -/
theorem timedelta_column_value_witness :
    getCol exOutOld "timedelta_ns"
      = some (List.replicate 1 (((10 : Nat) : ℚ) * (1 / 1000000000))) :=
  timedelta_column_value exPoses 20 10 ⟨Mat3.identity, ⟨-2, 0, 0⟩⟩ exFrame exOutOld
    [⟨1, 0, 0⟩] (by norm_num) (by norm_num) rfl ex_process_old

/-- Claim C2: the first candidate row is `start = max(index − W + 1, 0)`;
the candidate range is `[start, index]` inclusive; rows of other sessions
are dropped from the window; the window never holds more than `W` rows,
and fewer than `W` surviving sweeps is not an error (on the concrete
example with a session boundary inside the window the call succeeds with
a single sweep). -/
theorem read_lidar_window_selection (fi : FileIndex) (lg : String) (idx W : Nat) :
    ((startIdx idx W : Int) = max ((idx : Int) - (W : Int) + 1) 0)
    ∧ (∀ i, i ∈ candidateRange idx W ↔ startIdx idx W ≤ i ∧ i ≤ idx)
    ∧ (candidateRange idx W).length ≤ W
    ∧ (∀ surv, survivors fi lg idx W = some surv →
        surv = (candidateRange idx W).filter (fun i => fi.log_id i == some lg))
    ∧ read_lidar exFI2 exPoses exLidarData "A" 20 1 2 = some exOutQuery := by
  refine ⟨?_, mem_candidateRange idx W, candidateRange_length_le idx W,
    survivors_eq fi lg idx W, ex_read2⟩
  unfold startIdx
  exact Int.toNat_of_nonneg (le_max_right _ _)

/-- Witness for C2: on the session-boundary example the surviving window
is the single query row. -/
theorem read_lidar_window_selection_witness :
    [1] = (candidateRange 1 2).filter (fun i => exFI2.log_id i == some "A") :=
  (read_lidar_window_selection exFI2 "A" 1 2).2.2.2.1 [1] rfl

/-- Claim C6: pose resolution fails unrecoverably (modelled as `none`,
propagated by `read_lidar`) precisely when no pose row matches the
requested timestamp exactly, and when several rows match, the first
matching row is the one used. -/
theorem pose_resolution_contract (poses : List PoseRow) (ts : Nat) :
    (resolvePoseRow poses ts = none ↔ ∀ r ∈ poses, r.timestamp_ns ≠ ts)
    ∧ (∀ pre r post, poses = pre ++ r :: post → r.timestamp_ns = ts →
        (∀ r' ∈ pre, r'.timestamp_ns ≠ ts) → resolvePoseRow poses ts = some r)
    ∧ (∀ (fi : FileIndex) (ld : Nat → Option DataFrame) (lg : String) (idx W : Nat),
        resolvePoseRow poses ts = none → read_lidar fi poses ld lg ts idx W = none) := by
  refine ⟨?_, ?_, ?_⟩
  · unfold resolvePoseRow
    rw [List.head?_eq_none_iff, List.filter_eq_nil_iff]
    simp
  · intro pre r post hsplit hr hpre
    subst hsplit
    unfold resolvePoseRow
    rw [List.filter_append]
    have h1 : pre.filter (fun r => r.timestamp_ns == ts) = [] := by
      rw [List.filter_eq_nil_iff]
      intro r' hr'
      simp [hpre r' hr']
    rw [h1, List.nil_append, List.filter_cons, if_pos (by simp [hr])]
    rfl
  · intro fi ld lg idx W hnone
    unfold read_lidar
    rw [hnone]

/-- Witness for C6: on the duplicated pose table the first of the two
rows with timestamp 20 is returned. -/
theorem pose_resolution_contract_witness :
    resolvePoseRow exPosesDup 20 = some ⟨20, 2, 0, 0, 1, 0, 0, 0⟩ :=
  (pose_resolution_contract exPosesDup 20).2.1 [] ⟨20, 2, 0, 0, 1, 0, 0, 0⟩
    [⟨20, 99, 0, 0, 1, 0, 0, 0⟩] rfl rfl (by simp)

/-- Counterexample to C10 as stated: `read_lidar` succeeds on a window
whose query row has a *null* `timestamp_ns` (and whose session differs
from the target), because `timestamp_ns` is only looked up for rows that
survive the session filter — so success does not require the query index
to be a fully valid, non-null metadata row. -/
theorem metadata_lookup_cex :
    (read_lidar exFI5 exPoses exLidarData "A" 20 1 2).isSome = true ∧
    exFI5.timestamp_ns 1 = none := by
  rw [ex_read5]
  exact ⟨rfl, rfl⟩

/-- Claim C10 (amended): `read_lidar` performs unchecked `log_id` lookups
at every candidate index and unchecked `timestamp_ns` lookups at every
surviving index; success therefore requires a non-null `log_id` at every
candidate index — in particular at the query index — and a non-null
`timestamp_ns` at every surviving index; a null `log_id` at the query
index makes the call fail. -/
theorem metadata_lookup_contract (fi : FileIndex) (poses : List PoseRow)
    (ld : Nat → Option DataFrame) (lg : String) (qts idx W : Nat) :
    (∀ df, read_lidar fi poses ld lg qts idx W = some df →
      (∀ i ∈ candidateRange idx W, (fi.log_id i).isSome = true) ∧
      (fi.log_id idx).isSome = true ∧
      (∀ surv, survivors fi lg idx W = some surv →
        ∀ i ∈ surv, (fi.timestamp_ns i).isSome = true))
    ∧ (fi.log_id idx = none → read_lidar fi poses ld lg qts idx W = none) := by
  constructor
  · intro df h
    unfold read_lidar at h
    cases hq : resolvePoseRow poses qts with
    | none => rw [hq] at h; exact Option.noConfusion h
    | some qr =>
        simp only [hq] at h
        cases hs : survivors fi lg idx W with
        | none => simp only [hs] at h; exact Option.noConfusion h
        | some surv =>
            simp only [hs] at h
            cases hm : optMapM (loadSweep fi poses ld qts ((poseToSE3 qr).inverse)) surv with
            | none => simp only [hm] at h; exact Option.noConfusion h
            | some outs =>
                simp only [hm] at h
                have htag : ∃ t, taggedCandidates fi idx W = some t := by
                  unfold survivors at hs
                  cases ht : taggedCandidates fi idx W with
                  | none => rw [ht] at hs; exact Option.noConfusion hs
                  | some t => exact ⟨t, rfl⟩
                obtain ⟨t, ht⟩ := htag
                have hlogs : ∀ i ∈ candidateRange idx W, (fi.log_id i).isSome = true := by
                  intro i hi
                  have := optMapM_isSome_each ht i hi
                  cases hgi : fi.log_id i
                  · rw [hgi] at this; simp at this
                  · rfl
                refine ⟨hlogs, ?_, ?_⟩
                · -- the query index is a candidate: the call succeeded, so the
                  -- window is nonempty and `idx` is its last element
                  apply hlogs
                  rw [mem_candidateRange]
                  refine ⟨?_, le_refl idx⟩
                  by_contra hlt
                  push_neg at hlt
                  have hnil : candidateRange idx W = [] := candidateRange_eq_nil idx W hlt
                  have hsurv_nil : surv = [] := by
                    have := survivors_eq fi lg idx W surv hs
                    rw [this, hnil]
                    rfl
                  subst hsurv_nil
                  have : outs = [] := optMapM_nil_of_nil hm
                  subst this
                  exact (concatFrames_ne_nil [] df (by simpa using h)) rfl
                · intro surv2 hs2 i hi
                  have hsame : surv = surv2 := Option.some.inj hs2
                  subst hsame
                  have := optMapM_isSome_each hm i hi
                  unfold loadSweep at this
                  cases hti : fi.timestamp_ns i
                  · rw [hti] at this; simp at this
                  · rfl
  · intro hlog
    rcases le_or_lt (startIdx idx W) idx with hle | hlt
    · exact read_lidar_eq_none_of_survivors fi poses ld lg qts idx W
        (Or.inr (survivors_none_of_log_none fi lg idx W hlog hle))
    · exact read_lidar_eq_none_of_survivors fi poses ld lg qts idx W
        (Or.inl (survivors_of_range_nil fi lg idx W (candidateRange_eq_nil idx W hlt)))

/-- Witness for the amended C10 on the successful concrete run. -/
theorem metadata_lookup_contract_witness :
    (exFI5.log_id 1).isSome = true :=
  ((metadata_lookup_contract exFI5 exPoses exLidarData "A" 20 1 2).1
    exOutOld ex_read5).2.1

/-- Counterexample to C4 as stated: on the concrete example the reversed
sequence puts the most recent (query) sweep **first**, not last — the
first output row carries time offset 0 (the query sweep) and the last
row carries the older sweep's offset. -/
theorem accumulation_order_cex :
    read_lidar exFI exPoses exLidarData "A" 20 1 2 = some exOut ∧
    getCol exOut "timedelta_ns" = some [0, 1 / 100000000] ∧
    getCol exOut "timedelta_ns" ≠ some [1 / 100000000, 0] := by
  refine ⟨ex_read, rfl, ?_⟩
  intro hcon
  rw [show getCol exOut "timedelta_ns" = some [0, 1 / 100000000] from rfl] at hcon
  simp only [Option.some.injEq, List.cons.injEq] at hcon
  norm_num at hcon

/-- Claim C4 (amended): the per-sweep results are keyed by original row
index in ascending order and the sequence is reversed before vertical
concatenation, so the most recent (query) sweep is the **first** block of
the output; the final order depends only on the original row indices (the
embedding of the index-keyed parallel collect is a pure function of the
index list). -/
theorem accumulation_order (fi : FileIndex) (poses : List PoseRow)
    (ld : Nat → Option DataFrame) (lg : String) (qts idx W : Nat) (df : DataFrame)
    (h : read_lidar fi poses ld lg qts idx W = some df) :
    ∃ qr surv outs,
      resolvePoseRow poses qts = some qr ∧
      survivors fi lg idx W = some surv ∧
      optMapM (loadSweep fi poses ld qts ((poseToSE3 qr).inverse)) surv = some outs ∧
      concatFrames outs.reverse = some df ∧
      surv.Pairwise (· < ·) ∧
      (∀ i ∈ surv, startIdx idx W ≤ i ∧ i ≤ idx) ∧
      (fi.log_id idx = some lg →
        ∃ qOut, loadSweep fi poses ld qts ((poseToSE3 qr).inverse) idx = some qOut ∧
          outs.reverse.head? = some qOut) := by
  unfold read_lidar at h
  cases hq : resolvePoseRow poses qts with
  | none => rw [hq] at h; exact Option.noConfusion h
  | some qr =>
      simp only [hq] at h
      cases hs : survivors fi lg idx W with
      | none => simp only [hs] at h; exact Option.noConfusion h
      | some surv =>
          simp only [hs] at h
          cases hm : optMapM (loadSweep fi poses ld qts ((poseToSE3 qr).inverse)) surv with
          | none => simp only [hm] at h; exact Option.noConfusion h
          | some outs =>
              simp only [hm] at h
              have hse := survivors_eq fi lg idx W surv hs
              refine ⟨qr, surv, outs, rfl, rfl, hm, h, ?_, ?_, ?_⟩
              · rw [hse]
                exact (List.pairwise_lt_range' _ _).filter _
              · intro i hi
                rw [hse] at hi
                exact (mem_candidateRange idx W i).mp (List.mem_of_mem_filter hi)
              · intro hlg
                have hne : surv ≠ [] := by
                  intro h0
                  subst h0
                  have houts : outs = [] := optMapM_nil_of_nil hm
                  subst houts
                  exact (concatFrames_ne_nil [] df (by simpa using h)) rfl
                have hrne : candidateRange idx W ≠ [] := by
                  intro h0
                  apply hne
                  rw [hse, h0]
                  rfl
                have hlast := candidateRange_getLast idx W hrne
                have hslast : surv.getLast? = some idx := by
                  rw [hse]
                  exact getLast?_filter _ _ idx hlast (by rw [hlg]; simp)
                obtain ⟨qOut, hq1, hq2⟩ := optMapM_getLast hm hslast
                refine ⟨qOut, hq1, ?_⟩
                rw [List.head?_reverse]
                exact hq2

/-- Witness for the amended C4 on the concrete example. -/
theorem accumulation_order_witness :
    ∃ qr surv outs,
      resolvePoseRow exPoses 20 = some qr ∧
      survivors exFI "A" 1 2 = some surv ∧
      optMapM (loadSweep exFI exPoses exLidarData 20 ((poseToSE3 qr).inverse)) surv = some outs ∧
      concatFrames outs.reverse = some exOut ∧
      surv.Pairwise (· < ·) ∧
      (∀ i ∈ surv, startIdx 1 2 ≤ i ∧ i ≤ 1) ∧
      (exFI.log_id 1 = some "A" →
        ∃ qOut, loadSweep exFI exPoses exLidarData 20 ((poseToSE3 qr).inverse) 1 = some qOut ∧
          outs.reverse.head? = some qOut) :=
  accumulation_order exFI exPoses exLidarData "A" 20 1 2 exOut ex_read
